import Mathlib

/-!
Shallow embedding of the dfiles container-manager core
(`src/dfiles/containermanager.rs` and `src/dfiles/error.rs`) and proofs
about its run, archive-generation and entrypoint operations.

External effects are made explicit as parameters or returned data:
`std::env::current_exe` becomes a `selfBinary` argument, `which("sudo")`
an `Option String`, the spawned child's `status()` an `Option Nat`
(`none` models the launch failing), and the flag list handed to
`docker::run` is returned instead of executed.  Aspects (the
`ContainerAspect` trait lives in a module that is not part of the
sources) are records holding the values of the trait methods that
`containermanager.rs` consumes.
-/

/-- Error kinds, from `src/dfiles/error.rs` (variants not reachable from
the embedded code are kept for faithfulness of the error surface). -/
inductive Err where
  | notInEntrypointMode
  | missingEntrypointArgs
  | couldNotFindCurrentBinary
  | failedToAddFileToArchive
  | whichError
  | dockerError (msg : String)
  | failedToSaveConfig
  | failedToLoadConfig
  | ioError (msg : String)
deriving DecidableEq, Repr

/-- `pub type Result<T> = std::result::Result<T, Error>` from
`src/dfiles/error.rs`. -/
inductive Result (α : Type) where
  | ok (val : α)
  | error (err : Err)
deriving DecidableEq, Repr

/-- Modelled from the spec: the `DockerfileSnippet` value produced by an
aspect's `dockerfile_snippets()` (the aspects module is not among the
sources); a priority (`order`, a `u8` in the code, embedded as `Nat`
since the manager never computes with it) and an opaque text block. -/
structure DockerfileSnippet where
  order : Nat
  content : String
deriving DecidableEq, Repr

/-- Modelled from the spec: a `(path, content)` context-file pair
returned by an aspect's `container_files()`. -/
structure ContainerFile where
  container_path : String
  contents : String
deriving DecidableEq, Repr

/-- Modelled from the spec: one privileged setup step
(`EntrypointFn`): a description, elevation arguments contributed to the
eventual escalator invocation, and the outcome of running the step's
closure (`func`), embedded as the `Result` the closure returns. -/
structure EntrypointFn where
  description : String
  sudo_args : List String
  func : Result Unit
deriving DecidableEq, Repr

/-- Modelled from the spec: the `ContainerAspect` capability record, one
field per trait method that `containermanager.rs` consumes.  `run_args`
is the (possibly failing) flag list the aspect returns for the matches
of the current invocation. -/
structure ContainerAspect where
  name : String
  run_args : Result (List String)
  dockerfile_snippets : List DockerfileSnippet
  container_files : List ContainerFile
  entrypoint_fns : List EntrypointFn
deriving DecidableEq, Repr

/-- `ContainerManager` state (fields from `containermanager.rs`,
lines 27-33). -/
structure ContainerManager where
  name : String
  tags : List String
  container_paths : List String
  aspects : List ContainerAspect
  args : List String
deriving DecidableEq, Repr

/-- `ContainerManager::image` (line 53-55): `self.tags[0].clone()`; the
out-of-bounds panic on an empty tag list is surfaced as `none`. -/
def ContainerManager.image (m : ContainerManager) : Option String :=
  m.tags.head?

/-- The loop body of `ContainerManager::run` (lines 61-74): accumulate
each aspect's `run_args`, injecting the entrypoint mount/flag pair
whenever the aspect has entrypoint functions and `has_entrypoint` is
false.  Note the source sets `has_entrypoint = false` (line 63), so the
guard never trips. -/
def runLoop (selfBinary : String) : List ContainerAspect → Bool → List String → Result (List String)
  | [], _, args => .ok args
  | a :: rest, hasEp, args =>
    let st : Bool × List String :=
      if 0 < a.entrypoint_fns.length ∧ hasEp = false then
        (false, args ++ ["-v", selfBinary ++ ":" ++ "/entrypoint", "--entrypoint", "/entrypoint"])
      else
        (hasEp, args)
    match a.run_args with
    | .error e => .error e
    | .ok ra => runLoop selfBinary rest st.1 (st.2 ++ ra)

/-- `ContainerManager::run` (lines 57-80): seed `["--rm"]`, run the
aspect loop, append the first image tag and the trailing arguments; the
resulting vector is what is handed to `docker::run`. -/
def ContainerManager.run (selfBinary : String) (m : ContainerManager) : Result (List String) :=
  match runLoop selfBinary m.aspects false ["--rm"] with
  | .error e => .error e
  | .ok args =>
    match m.image with
    | none => .error (.ioError "index out of bounds: tags is empty")
    | some img => .ok (args ++ [img] ++ m.args)

/-- The `BTreeMap` accumulation of `generate_archive_impl`
(lines 110-116): a key-ascending association list; on an existing key
the new content is appended after a line break
(`e.push('\n'); e.push_str(...)`), otherwise the content is inserted. -/
def insertSnippet : List (Nat × String) → Nat → String → List (Nat × String)
  | [], p, s => [(p, s)]
  | (q, t) :: rest, p, s =>
    if p < q then (p, s) :: (q, t) :: rest
    else if p = q then (q, t ++ "\n" ++ s) :: rest
    else (q, t) :: insertSnippet rest p s

/-- The per-aspect loop of `generate_archive_impl` (lines 107-121):
fold every snippet into the priority map and append every container
file to the archive, aspect by aspect. -/
def archiveLoop : List ContainerAspect → List (Nat × String) × List (String × String) → List (Nat × String) × List (String × String)
  | [], st => st
  | a :: rest, (m, entries) =>
    let m := a.dockerfile_snippets.foldl (fun m s => insertSnippet m s.order s.content) m
    let entries := entries ++ a.container_files.map (fun f => (f.container_path, f.contents))
    archiveLoop rest (m, entries)

/-- Lines 123-129 of `generate_archive_impl`: concatenate the map's
values in ascending key order, each followed by two line breaks. -/
def renderContents (m : List (Nat × String)) : String :=
  m.foldl (fun acc ps => acc ++ ps.2 ++ "\n\n") ""

/-- The Dockerfile text assembled by `generate_archive_impl` for an
aspect list. -/
def dockerfileContents (aspects : List ContainerAspect) : String :=
  renderContents (archiveLoop aspects ([], [])).1

/-- `ContainerManager::generate_archive_impl` (lines 103-134): the
sequence of `(path, contents)` archive entries written through
`add_file_to_archive`, the Dockerfile entry appended last. -/
def generate_archive_impl (aspects : List ContainerAspect) : List (String × String) :=
  let st := archiveLoop aspects ([], [])
  st.2 ++ [("Dockerfile", renderContents st.1)]

/-- `ContainerManager::generate_archive` (lines 136-139): the target
path handed to `File::create` together with the archive content. -/
def ContainerManager.generate_archive (m : ContainerManager) : String × List (String × String) :=
  ("whatever.tar", generate_archive_impl m.aspects)

/-- The filesystem effect of `generate_archive`: `File::create` creates
or truncates the target, so the store afterwards maps `"whatever.tar"`
to the fresh archive and leaves every other path unchanged. -/
def generateArchiveFs (fs : String → Option (List (String × String))) (m : ContainerManager) : String → Option (List (String × String)) :=
  fun p => if p = "whatever.tar" then some (generate_archive_impl m.aspects) else fs p

/-- The inner loop of `ContainerManager::entrypoint` (lines 181-185)
over one aspect's entrypoint functions: extend `sudo_args`, then run the
closure; the trace records each step actually invoked (aspect name and
description, as printed on line 182). -/
def runFns (aname : String) : List EntrypointFn → List String → List (String × String) × Result (List String)
  | [], sargs => ([], .ok sargs)
  | f :: fs, sargs =>
    let sargs := sargs ++ f.sudo_args
    match f.func with
    | .error e => ([(aname, f.description)], .error e)
    | .ok _ =>
      let r := runFns aname fs sargs
      ((aname, f.description) :: r.1, r.2)

/-- The outer loop of `ContainerManager::entrypoint` (lines 180-186)
over the aspect list. -/
def runAspectsSteps : List ContainerAspect → List String → List (String × String) × Result (List String)
  | [], sargs => ([], .ok sargs)
  | a :: rest, sargs =>
    match runFns a.name a.entrypoint_fns sargs with
    | (tr, .error e) => (tr, .error e)
    | (tr, .ok sargs) =>
      let r := runAspectsSteps rest sargs
      (tr ++ r.1, r.2)

/-- The escalator invocation built on lines 193-197: program, argument
list, and the child's exit code. -/
structure Invocation where
  program : String
  cmdArgs : List String
  exitCode : Nat
deriving DecidableEq, Repr

/-- `ContainerManager::entrypoint` (lines 177-199).  `sudoPath` is the
result of `which("sudo")` (`none` = lookup failure), `childExit` the
result of `.status()` on the spawned escalator (`none` = launch error,
`some c` = child exited with code `c`).  Returns the trace of executed
setup steps and the operation's result; note the source discards the
child's `ExitStatus` (line 197 ends in `?;`), so a successful launch
yields `Ok` whatever the exit code. -/
def entrypoint (sudoPath : Option String) (childExit : Option Nat) (aspects : List ContainerAspect) (args : List String) : List (String × String) × Result Invocation :=
  match sudoPath with
  | none => ([], .error .whichError)
  | some sp =>
    match runAspectsSteps aspects [] with
    | (tr, .error e) => (tr, .error e)
    | (tr, .ok sudoArgs) =>
      if args.length < 2 then (tr, .error .missingEntrypointArgs)
      else
        match childExit with
        | none => (tr, .error (.ioError "failed to launch escalator"))
        | some code => (tr, .ok ⟨sp, sudoArgs ++ ["--"] ++ args.drop 1, code⟩)

/-- The subcommand selected by clap in `execute_clap` (lines 217-283);
`entrypointCmd` carries the values of its required `command` argument
(`none` when clap produced no values, line 277-279). -/
inductive Subcommand where
  | runCmd
  | buildCmd
  | configCmd
  | entrypointCmd (command : Option (List String))
  | generateArchiveCmd
deriving DecidableEq, Repr

/-- Observable outcome of a dispatched subcommand. -/
inductive Outcome where
  | ran (flags : List String)
  | built
  | configured
  | entrypointDone (inv : Invocation)
  | archived (entries : List (String × String))
  | usage
deriving DecidableEq, Repr

/-- Environment of one `execute` invocation: the resolved
`current_exe` path, the raw `std::env::args` vector, the `which` and
child-process results consumed by `entrypoint`, the `Profile` aspect
value inserted at position 0 (line 230-236; the aspects module is not
among the sources), the aspects contributed by `load_config`
(lines 163-175; the config module is not among the sources), and the
opaque results of the docker build and config save. -/
structure ExecCtx where
  selfBinary : String
  envArgs : List String
  sudoPath : Option String
  childExit : Option Nat
  profile : ContainerAspect
  cfgLoad : Result (List ContainerAspect)
  buildResult : Result Unit
  configSave : Result Unit

/-- `ContainerManager::execute_clap` (lines 217-284): insert the
`Profile` aspect at position 0, load configuration when a subcommand
was given, then dispatch.  The trace component lists the privileged
setup steps executed. -/
def executeClap (ctx : ExecCtx) (m : ContainerManager) (sub : Option Subcommand) : List (String × String) × Result Outcome :=
  match sub with
  | none => ([], .ok .usage)
  | some s =>
    match ctx.cfgLoad with
    | .error e => ([], .error e)
    | .ok extra =>
      let m := { m with aspects := ctx.profile :: m.aspects ++ extra }
      match s with
      | .runCmd =>
        ([], match m.run ctx.selfBinary with
             | .error e => .error e
             | .ok flags => .ok (.ran flags))
      | .buildCmd =>
        ([], match ctx.buildResult with
             | .error e => .error e
             | .ok _ => .ok .built)
      | .configCmd =>
        ([], match ctx.configSave with
             | .error e => .error e
             | .ok _ => .ok .configured)
      | .entrypointCmd cmd =>
        match cmd with
        | none => ([], .error .missingEntrypointArgs)
        | some vs =>
          let r := entrypoint ctx.sudoPath ctx.childExit m.aspects vs
          (r.1, match r.2 with
                | .error e => .error e
                | .ok inv => .ok (.entrypointDone inv))
      | .generateArchiveCmd =>
        ([], .ok (.archived (generate_archive_impl m.aspects)))

/-- `ContainerManager::execute` (lines 201-215): when the resolved
binary path is the sentinel `/entrypoint`, go straight to entrypoint
execution on the raw argument vector; otherwise fall through to clap
dispatch. -/
def execute (ctx : ExecCtx) (m : ContainerManager) (sub : Option Subcommand) : List (String × String) × Result Outcome :=
  if ctx.selfBinary = "/entrypoint" then
    let r := entrypoint ctx.sudoPath ctx.childExit m.aspects ctx.envArgs
    (r.1, match r.2 with
          | .error e => .error e
          | .ok inv => .ok (.entrypointDone inv))
  else
    executeClap ctx m sub

/-- All privileged setup steps of an aspect list, in aspect-list order:
the trace `entrypoint` produces when every step succeeds. -/
def allSteps (aspects : List ContainerAspect) : List (String × String) :=
  aspects.flatMap (fun a => a.entrypoint_fns.map (fun f => (a.name, f.description)))

/-- All elevation arguments accumulated across an aspect list, in
aspect-list order. -/
def allSudoArgs (aspects : List ContainerAspect) : List String :=
  aspects.flatMap (fun a => a.entrypoint_fns.flatMap (fun f => f.sudo_args))

/-- The `(path, contents)` context-file entries contributed by an
aspect list, in aspect-list order. -/
def flatFiles (aspects : List ContainerAspect) : List (String × String) :=
  aspects.flatMap (fun a => a.container_files.map (fun f => (f.container_path, f.contents)))

/-- An aspect with no contributions; concrete fixtures adjust fields. -/
def emptyAspect : ContainerAspect :=
  { name := "empty"
    run_args := .ok []
    dockerfile_snippets := []
    container_files := []
    entrypoint_fns := [] }

/-- Fixture: aspect contributing only the runtime flag `-a`. -/
def aspectA : ContainerAspect :=
  { emptyAspect with name := "A", run_args := .ok ["-a"] }

/-- Fixture: aspect with one privileged setup step and no flags. -/
def aspectB : ContainerAspect :=
  { emptyAspect with name := "B", entrypoint_fns := [⟨"step b", [], .ok ()⟩] }

/-- Fixture: a second aspect with one privileged setup step. -/
def aspectC : ContainerAspect :=
  { emptyAspect with name := "C", entrypoint_fns := [⟨"step c", [], .ok ()⟩] }

/-- Fixture: aspect whose setup step contributes elevation arguments. -/
def aspectU : ContainerAspect :=
  { emptyAspect with name := "U", entrypoint_fns := [⟨"create user", ["-u", "app"], .ok ()⟩] }

/-- Fixture manager for the entrypoint-flag injection analysis: one
plain aspect followed by two aspects with setup steps. -/
def mgrC1 : ContainerManager :=
  { name := "app"
    tags := ["img"]
    container_paths := []
    aspects := [aspectA, aspectB, aspectC]
    args := [] }

/-- Fixture: the single aspect of end-to-end scenario B. -/
def aspectFoo : ContainerAspect :=
  { emptyAspect with name := "foo", run_args := .ok ["--foo", "bar"] }

/-- Fixture manager for end-to-end scenario B. -/
def mgrC3 : ContainerManager :=
  { name := "app"
    tags := ["app:v1"]
    container_paths := []
    aspects := [aspectFoo]
    args := ["cmd", "--flag"] }

/-- Fixture: aspect contributing snippet `X` at priority 5. -/
def aspectX : ContainerAspect :=
  { emptyAspect with name := "X", dockerfile_snippets := [⟨5, "X"⟩] }

/-- Fixture: aspect contributing `Y` at priority 5 and `Z` at 1. -/
def aspectYZ : ContainerAspect :=
  { emptyAspect with name := "YZ", dockerfile_snippets := [⟨5, "Y"⟩, ⟨1, "Z"⟩] }

/-- Fixture execution context for a non-sentinel invocation. -/
def ctxC5 : ExecCtx :=
  { selfBinary := "/usr/bin/app"
    envArgs := []
    sudoPath := some "/usr/bin/sudo"
    childExit := some 0
    profile := { emptyAspect with name := "Profile" }
    cfgLoad := .ok []
    buildResult := .ok ()
    configSave := .ok () }

/-- The aspects `load_config` contributes in a context (empty when the
load failed; the failure itself is handled separately). -/
def cfgAspectsOf (ctx : ExecCtx) : List ContainerAspect :=
  match ctx.cfgLoad with
  | .ok l => l
  | .error _ => []

/-- Fixture manager with one privileged-setup aspect. -/
def mgrC5 : ContainerManager :=
  { name := "app"
    tags := ["img"]
    container_paths := []
    aspects := [aspectU]
    args := [] }

/-- Sorted-distinct insertion of a priority into an ascending key
list: the key skeleton of `insertSnippet`. -/
def insertKey (p : Nat) : List Nat → List Nat
  | [] => [p]
  | q :: rest =>
    if p < q then p :: q :: rest
    else if p = q then q :: rest
    else q :: insertKey p rest

/-- The distinct priorities of a snippet list in ascending order. -/
def sortedKeys (snips : List DockerfileSnippet) : List Nat :=
  snips.foldl (fun ks s => insertKey s.order ks) []

/-- Modelled from the spec: texts "concatenated in aspect-registration
order, separated by a line break". -/
def joinNL : List String → String
  | [] => ""
  | [x] => x
  | x :: y :: xs => x ++ "\n" ++ joinNL (y :: xs)

/-- Concatenation of a list of text blocks. -/
def concatAll : List String → String
  | [] => ""
  | x :: xs => x ++ concatAll xs

/-- The snippet texts contributed at one priority, in registration
order. -/
def textsAt (snips : List DockerfileSnippet) (p : Nat) : List String :=
  (snips.filter (fun s => s.order == p)).map (fun s => s.content)

/-- Modelled from the spec: the Image Recipe as §3 words it — "final
recipe is the priority-ascending concatenation of all entries, each
followed by a blank line", entries at one priority joined in
registration order separated by a line break. -/
def recipeSpec (snips : List DockerfileSnippet) : String :=
  concatAll ((sortedKeys snips).map (fun p => joinNL (textsAt snips p) ++ "\n\n"))

/-- The snippets of an aspect list flattened in registration order. -/
def flatSnips (aspects : List ContainerAspect) : List DockerfileSnippet :=
  aspects.flatMap (fun a => a.dockerfile_snippets)

/-- The priority map of `generate_archive_impl` built from a flattened
snippet list. -/
def buildAssoc (snips : List DockerfileSnippet) : List (Nat × String) :=
  snips.foldl (fun m s => insertSnippet m s.order s.content) []

/-- C1 (code evaluated at the failing input): with aspects `A` (flag
`-a`, no setup steps), `B` and `C` (one setup step each), `run` injects
the `-v <self>:/entrypoint --entrypoint /entrypoint` pair twice — once
per setup-declaring aspect, the dead-store `has_entrypoint = false` on
line 63 never arming the guard — and after aspect `A`'s explicit flag
rather than before all aspect flags. -/
theorem run_injects_entrypoint_flags_per_aspect :
    ContainerManager.run "/bin/self" mgrC1 =
      .ok ["--rm", "-a",
           "-v", "/bin/self:/entrypoint", "--entrypoint", "/entrypoint",
           "-v", "/bin/self:/entrypoint", "--entrypoint", "/entrypoint",
           "img"] := by
  decide

/-- C3: end-to-end scenario B: one aspect with flags `--foo bar`, image
tag `app:v1`, trailing arguments `cmd --flag`; `run` hands the engine
exactly `--rm --foo bar app:v1 cmd --flag`. -/
theorem run_scenario_b :
    ContainerManager.run "/bin/self" mgrC3 =
      .ok ["--rm", "--foo", "bar", "app:v1", "cmd", "--flag"] := by
  decide

/-- C6 (code evaluated at the failing input): with sudo resolved, one
setup step contributing `-u app`, command vector `["prog", "cmd"]` and
a child that exits with code 1, `entrypoint` invokes the escalator with
the accumulated elevation arguments, the `--` separator and the user
command, but still reports success: line 197's `.status()?;` discards
the child's `ExitStatus`. -/
theorem entrypoint_ok_despite_nonzero_exit :
    entrypoint (some "/usr/bin/sudo") (some 1) [aspectU] ["prog", "cmd"] =
      ([("U", "create user")],
       .ok ⟨"/usr/bin/sudo", ["-u", "app", "--", "cmd"], 1⟩) := by
  decide

/-- C10: `which("sudo")` is the first statement of `entrypoint`
(line 178): when resolution fails, the operation fails with the
`which` error and the executed-step trace is empty — no privileged
setup step runs. -/
theorem entrypoint_which_fails_no_setup (childExit : Option Nat) (aspects : List ContainerAspect) (args : List String) :
    entrypoint none childExit aspects args = ([], .error .whichError) :=
  rfl

/-- When every entrypoint function of the list succeeds, `runFns`
executes each of them in order and accumulates every `sudo_args`
block. -/
theorem runFns_all_ok (aname : String) (fns : List EntrypointFn) (sargs : List String)
    (h : ∀ f ∈ fns, f.func = .ok ()) :
    runFns aname fns sargs =
      (fns.map (fun f => (aname, f.description)),
       .ok (sargs ++ fns.flatMap (fun f => f.sudo_args))) := by
  induction fns generalizing sargs with
  | nil => simp [runFns]
  | cons f fs ih =>
    have hf : f.func = .ok () := h f (List.mem_cons_self _ _)
    simp [runFns, hf, ih _ (fun g hg => h g (List.mem_cons_of_mem _ hg)), List.append_assoc]

/-- When every setup step of every aspect succeeds, the aspect loop of
`entrypoint` executes all steps in aspect-list order and accumulates
all elevation arguments. -/
theorem runAspectsSteps_all_ok (aspects : List ContainerAspect) (sargs : List String)
    (h : ∀ a ∈ aspects, ∀ f ∈ a.entrypoint_fns, f.func = .ok ()) :
    runAspectsSteps aspects sargs = (allSteps aspects, .ok (sargs ++ allSudoArgs aspects)) := by
  induction aspects generalizing sargs with
  | nil => simp [runAspectsSteps, allSteps, allSudoArgs]
  | cons a rest ih =>
    simp only [runAspectsSteps]
    rw [runFns_all_ok a.name a.entrypoint_fns sargs (h a (List.mem_cons_self _ _))]
    simp [allSteps, allSudoArgs, ih _ (fun b hb => h b (List.mem_cons_of_mem _ hb)),
      List.append_assoc]

/-- C4: in entrypoint execution every aspect's privileged setup steps
run, in aspect-list order, before the argument-count validation: with
sudo resolved, all steps succeeding and fewer than two raw arguments,
`entrypoint` fails with the missing-entrypoint-arguments error and its
trace is the full step list. -/
theorem entrypoint_setup_precedes_arg_validation (sp : String) (childExit : Option Nat)
    (aspects : List ContainerAspect) (args : List String)
    (hok : ∀ a ∈ aspects, ∀ f ∈ a.entrypoint_fns, f.func = .ok ())
    (hargs : args.length < 2) :
    entrypoint (some sp) childExit aspects args =
      (allSteps aspects, .error .missingEntrypointArgs) := by
  simp only [entrypoint]
  rw [runAspectsSteps_all_ok aspects [] hok]
  simp [hargs]

/-- C4 witness: two setup-declaring aspects and a one-element argument
vector; both steps are attempted, then the missing-arguments error. -/
theorem entrypoint_setup_precedes_arg_validation_app :
    entrypoint (some "/usr/bin/sudo") (some 0) [aspectB, aspectC] ["prog"] =
      (allSteps [aspectB, aspectC], .error .missingEntrypointArgs) :=
  entrypoint_setup_precedes_arg_validation "/usr/bin/sudo" (some 0) [aspectB, aspectC]
    ["prog"] (by decide) (by decide)

/-- The archive entries accumulated by the aspect loop are the initial
entries followed by every aspect's context files, in aspect-list
order. -/
theorem archiveLoop_entries (aspects : List ContainerAspect) (m : List (Nat × String))
    (es : List (String × String)) :
    (archiveLoop aspects (m, es)).2 = es ++ flatFiles aspects := by
  induction aspects generalizing m es with
  | nil => simp [archiveLoop, flatFiles]
  | cons a rest ih => simp [archiveLoop, flatFiles, ih, List.append_assoc]

/-- C7: the synthesized Dockerfile entry is the final entry of the
build-context archive, after every aspect-contributed context file. -/
theorem dockerfile_entry_last (aspects : List ContainerAspect) :
    generate_archive_impl aspects =
        flatFiles aspects ++ [("Dockerfile", dockerfileContents aspects)] ∧
      (generate_archive_impl aspects).getLast? =
        some ("Dockerfile", dockerfileContents aspects) := by
  have h : generate_archive_impl aspects =
      flatFiles aspects ++ [("Dockerfile", dockerfileContents aspects)] := by
    simp [generate_archive_impl, dockerfileContents, archiveLoop_entries aspects [] []]
  exact ⟨h, by rw [h]; exact List.getLast?_concat _⟩

/-- C8: recipe assembly is deterministic — it is a pure function of the
aspect list, so equal lists give byte-identical recipe text. -/
theorem recipe_deterministic (l1 l2 : List ContainerAspect) (h : l1 = l2) :
    dockerfileContents l1 = dockerfileContents l2 := by
  rw [h]

/-- C8 witness: two runs on the scenario-A aspect list agree. -/
theorem recipe_deterministic_app :
    dockerfileContents [aspectX, aspectYZ] = dockerfileContents [aspectX, aspectYZ] :=
  recipe_deterministic [aspectX, aspectYZ] [aspectX, aspectYZ] rfl

/-- C9: `generate_archive` always targets the fixed relative path
`whatever.tar`, regardless of the manager's name or configuration; the
write maps that path to the fresh archive (`File::create` truncates any
existing file) and touches no other path. -/
theorem generate_archive_fixed_target (fs : String → Option (List (String × String)))
    (m : ContainerManager) (p : String) (hp : p ≠ "whatever.tar") :
    (ContainerManager.generate_archive m).1 = "whatever.tar" ∧
      generateArchiveFs fs m "whatever.tar" = some (generate_archive_impl m.aspects) ∧
      generateArchiveFs fs m p = fs p := by
  refine ⟨rfl, ?_, ?_⟩
  · simp [generateArchiveFs]
  · simp [generateArchiveFs, hp]

/-- C9 witness: a concrete manager and an empty filesystem. -/
theorem generate_archive_fixed_target_app :
    (ContainerManager.generate_archive mgrC3).1 = "whatever.tar" ∧
      generateArchiveFs (fun _ => none) mgrC3 "whatever.tar" =
        some (generate_archive_impl mgrC3.aspects) ∧
      generateArchiveFs (fun _ => none) mgrC3 "other" = none :=
  generate_archive_fixed_target (fun _ => none) mgrC3 "other" (by decide)

/-- Any error of the entrypoint-function loop is the failure of one of
the functions in the list. -/
theorem runFns_error_source (aname : String) (fns : List EntrypointFn) (sargs : List String)
    (e : Err) (h : (runFns aname fns sargs).2 = .error e) :
    ∃ f ∈ fns, f.func = .error e := by
  induction fns generalizing sargs with
  | nil => simp [runFns] at h
  | cons f fs ih =>
    rcases hf : f.func with v | e'
    · simp only [runFns, hf] at h
      obtain ⟨g, hg, hge⟩ := ih _ h
      exact ⟨g, List.mem_cons_of_mem _ hg, hge⟩
    · simp [runFns, hf] at h
      subst h
      exact ⟨f, List.mem_cons_self _ _, hf⟩

/-- Any error of the aspect-step loop is the failure of one aspect's
entrypoint function. -/
theorem runAspectsSteps_error_source (aspects : List ContainerAspect) (sargs : List String)
    (e : Err) (h : (runAspectsSteps aspects sargs).2 = .error e) :
    ∃ a ∈ aspects, ∃ f ∈ a.entrypoint_fns, f.func = .error e := by
  induction aspects generalizing sargs with
  | nil => simp [runAspectsSteps] at h
  | cons a rest ih =>
    simp only [runAspectsSteps] at h
    rcases hr : runFns a.name a.entrypoint_fns sargs with ⟨tr, r⟩
    rw [hr] at h
    cases r with
    | error e' =>
      simp at h
      subst h
      obtain ⟨f, hf, hfe⟩ := runFns_error_source a.name a.entrypoint_fns sargs _ (by rw [hr])
      exact ⟨a, List.mem_cons_self _ _, f, hf, hfe⟩
    | ok sargs2 =>
      simp at h
      obtain ⟨b, hb, f, hf, hfe⟩ := ih sargs2 h
      exact ⟨b, List.mem_cons_of_mem _ hb, f, hf, hfe⟩

/-- Any error of the `run` aspect loop is the failure of one aspect's
`run_args`. -/
theorem runLoop_error_source (sb : String) (aspects : List ContainerAspect) (b : Bool)
    (acc : List String) (e : Err) (h : runLoop sb aspects b acc = .error e) :
    ∃ a ∈ aspects, a.run_args = .error e := by
  induction aspects generalizing b acc with
  | nil => simp [runLoop] at h
  | cons a rest ih =>
    simp only [runLoop] at h
    rcases hra : a.run_args with ra | e'
    · rw [hra] at h
      obtain ⟨b2, hb2, hbe⟩ := ih _ _ h
      exact ⟨b2, List.mem_cons_of_mem _ hb2, hbe⟩
    · rw [hra] at h
      simp at h
      subst h
      exact ⟨a, List.mem_cons_self _ _, hra⟩

/-- Any error of `ContainerManager.run` is an aspect's `run_args`
failure or the empty-tag-list panic. -/
theorem run_error_source (sb : String) (m : ContainerManager) (e : Err)
    (h : ContainerManager.run sb m = .error e) :
    (∃ a ∈ m.aspects, a.run_args = .error e) ∨
      e = .ioError "index out of bounds: tags is empty" := by
  simp only [ContainerManager.run] at h
  rcases hr : runLoop sb m.aspects false ["--rm"] with args | e'
  · rw [hr] at h
    cases him : m.image with
    | none =>
      rw [him] at h
      simp at h
      exact Or.inr h.symm
    | some img =>
      rw [him] at h
      simp at h
  · rw [hr] at h
    simp at h
    subst h
    exact Or.inl (runLoop_error_source _ _ _ _ _ hr)

/-- Any error of `entrypoint` is the `which` failure, the
missing-arguments error, the escalator launch error or the failure of
one aspect's setup function. -/
theorem entrypoint_error_source (sp : Option String) (ce : Option Nat)
    (aspects : List ContainerAspect) (args : List String) (e : Err)
    (h : (entrypoint sp ce aspects args).2 = .error e) :
    e = .whichError ∨ e = .missingEntrypointArgs ∨
      e = .ioError "failed to launch escalator" ∨
      ∃ a ∈ aspects, ∃ f ∈ a.entrypoint_fns, f.func = .error e := by
  cases sp with
  | none =>
    simp [entrypoint] at h
    exact Or.inl h.symm
  | some sp =>
    simp only [entrypoint] at h
    rcases hr : runAspectsSteps aspects [] with ⟨tr, r⟩
    rw [hr] at h
    cases r with
    | error e' =>
      simp at h
      subst h
      exact Or.inr (Or.inr (Or.inr (runAspectsSteps_error_source _ _ _ (by rw [hr]))))
    | ok sargs =>
      by_cases hlen : args.length < 2
      · simp [hlen] at h
        exact Or.inr (Or.inl h.symm)
      · cases ce with
        | none =>
          simp [hlen] at h
          exact Or.inr (Or.inr (Or.inl h.symm))
        | some c => simp [hlen] at h

/-- A non-empty setup-step trace out of clap dispatch can only come
from the explicit `entrypoint` subcommand: no other branch calls the
entrypoint logic. -/
theorem executeClap_trace_source (ctx : ExecCtx) (m : ContainerManager) (sub : Option Subcommand)
    (h : (executeClap ctx m sub).1 ≠ []) : ∃ cmd, sub = some (.entrypointCmd cmd) := by
  cases sub with
  | none => simp [executeClap] at h
  | some s =>
    cases s with
    | runCmd => rcases hcl : ctx.cfgLoad with extra | e <;> simp [executeClap, hcl] at h
    | buildCmd => rcases hcl : ctx.cfgLoad with extra | e <;> simp [executeClap, hcl] at h
    | configCmd => rcases hcl : ctx.cfgLoad with extra | e <;> simp [executeClap, hcl] at h
    | entrypointCmd cmd => exact ⟨cmd, rfl⟩
    | generateArchiveCmd =>
      rcases hcl : ctx.cfgLoad with extra | e <;> simp [executeClap, hcl] at h

/-- Clap dispatch never produces the not-in-entrypoint-mode error when
none of the external components (config load, build, config save, the
aspects' flag collection and setup functions) produces it: no branch of
the manager constructs that error. -/
theorem executeClap_no_guard_error (ctx : ExecCtx) (m : ContainerManager) (sub : Option Subcommand)
    (hcfg : ctx.cfgLoad ≠ .error .notInEntrypointMode)
    (hbuild : ctx.buildResult ≠ .error .notInEntrypointMode)
    (hsave : ctx.configSave ≠ .error .notInEntrypointMode)
    (hasp : ∀ a ∈ ctx.profile :: (m.aspects ++ cfgAspectsOf ctx),
      a.run_args ≠ .error .notInEntrypointMode ∧
        ∀ f ∈ a.entrypoint_fns, f.func ≠ .error .notInEntrypointMode) :
    (executeClap ctx m sub).2 ≠ .error .notInEntrypointMode := by
  cases sub with
  | none => simp [executeClap]
  | some s =>
    rcases hcl : ctx.cfgLoad with extra | e
    case error =>
      cases s <;> simp [executeClap, hcl] <;> rintro rfl <;> exact hcfg hcl
    case ok =>
      have hx : cfgAspectsOf ctx = extra := by simp [cfgAspectsOf, hcl]
      cases s with
      | runCmd =>
        simp only [executeClap, hcl]
        rcases hrun : ContainerManager.run ctx.selfBinary
            { m with aspects := ctx.profile :: m.aspects ++ extra } with flags | e'
        · simp [hrun]
        · simp [hrun]
          rintro rfl
          rcases run_error_source _ _ _ hrun with ⟨a, ha, hae⟩ | hio
          · exact (hasp a (by simpa [hx] using ha)).1 hae
          · simp at hio
      | buildCmd =>
        rcases hbr : ctx.buildResult with u | e'
        · simp [executeClap, hcl, hbr]
        · simp [executeClap, hcl, hbr]
          rintro rfl
          exact hbuild hbr
      | configCmd =>
        rcases hsr : ctx.configSave with u | e'
        · simp [executeClap, hcl, hsr]
        · simp [executeClap, hcl, hsr]
          rintro rfl
          exact hsave hsr
      | entrypointCmd cmd =>
        cases cmd with
        | none => simp [executeClap, hcl]
        | some vs =>
          simp only [executeClap, hcl]
          rcases hep : (entrypoint ctx.sudoPath ctx.childExit
              (ctx.profile :: m.aspects ++ extra) vs).2 with inv | e'
          · simp [hep]
          · simp [hep]
            rintro rfl
            rcases entrypoint_error_source _ _ _ _ _ hep with h1 | h2 | h3 | ⟨a, ha, f, hf, hfe⟩
            · simp at h1
            · simp at h2
            · simp at h3
            · exact (hasp a (by simpa [hx] using ha)).2 f hf hfe
      | generateArchiveCmd => simp [executeClap, hcl]

/-- C5 amended: when the resolved binary path is not the sentinel
`/entrypoint`, `execute` dispatches to subcommands instead of
entrypoint mode: it never fails with the not-in-entrypoint-mode error
(no code path constructs it, provided no external component supplies
it), and privileged setup steps execute only when the explicit
`entrypoint` subcommand was requested. -/
theorem execute_nonsentinel_dispatches_to_clap (ctx : ExecCtx) (m : ContainerManager)
    (sub : Option Subcommand)
    (hb : ctx.selfBinary ≠ "/entrypoint")
    (hcfg : ctx.cfgLoad ≠ .error .notInEntrypointMode)
    (hbuild : ctx.buildResult ≠ .error .notInEntrypointMode)
    (hsave : ctx.configSave ≠ .error .notInEntrypointMode)
    (hasp : ∀ a ∈ ctx.profile :: (m.aspects ++ cfgAspectsOf ctx),
      a.run_args ≠ .error .notInEntrypointMode ∧
        ∀ f ∈ a.entrypoint_fns, f.func ≠ .error .notInEntrypointMode) :
    (execute ctx m sub).2 ≠ .error .notInEntrypointMode ∧
      ((execute ctx m sub).1 ≠ [] → ∃ cmd, sub = some (.entrypointCmd cmd)) := by
  simp only [execute, if_neg hb]
  exact ⟨executeClap_no_guard_error ctx m sub hcfg hbuild hsave hasp,
    executeClap_trace_source ctx m sub⟩

/-- C5 amended, witness: a concrete non-sentinel invocation of the
`run` subcommand. -/
theorem execute_nonsentinel_dispatches_to_clap_app :
    (execute ctxC5 mgrC5 (some .runCmd)).2 ≠ .error .notInEntrypointMode ∧
      ((execute ctxC5 mgrC5 (some .runCmd)).1 ≠ [] →
        ∃ cmd, (some Subcommand.runCmd : Option Subcommand) = some (.entrypointCmd cmd)) :=
  execute_nonsentinel_dispatches_to_clap ctxC5 mgrC5 (some .runCmd)
    (by decide) (by decide) (by decide) (by decide) (by decide)

/-- C5 counterexample: a non-sentinel invocation (`/usr/bin/app`) that
selects the `entrypoint` subcommand does execute a privileged setup
step and does not fail with the not-in-entrypoint-mode error, refuting
the claim that every non-sentinel invocation of the entrypoint logic
fails with that error without running any setup step. -/
theorem execute_nonsentinel_runs_setup :
    (execute ctxC5 mgrC5 (some (.entrypointCmd (some ["sh", "-c", "id"])))).1 ≠ [] ∧
      (execute ctxC5 mgrC5 (some (.entrypointCmd (some ["sh", "-c", "id"])))).2 ≠
        .error .notInEntrypointMode := by
  decide

/-- Membership in a sorted-distinct insertion. -/
theorem mem_insertKey (p x : Nat) (ks : List Nat) :
    x ∈ insertKey p ks ↔ x = p ∨ x ∈ ks := by
  induction ks with
  | nil => simp [insertKey]
  | cons q rest ih =>
    by_cases h1 : p < q
    · simp [insertKey, h1, List.mem_cons]
    · by_cases h2 : p = q
      · subst h2
        simp [insertKey, h1, List.mem_cons]
      · simp [insertKey, h1, h2, List.mem_cons, ih]
        tauto

/-- Sorted-distinct insertion preserves strict ascending order. -/
theorem insertKey_pairwise (p : Nat) (ks : List Nat) (hs : ks.Pairwise (· < ·)) :
    (insertKey p ks).Pairwise (· < ·) := by
  induction ks with
  | nil => simp [insertKey]
  | cons q rest ih =>
    obtain ⟨hq, hrest⟩ := List.pairwise_cons.mp hs
    by_cases h1 : p < q
    · simp only [insertKey, if_pos h1]
      refine List.pairwise_cons.mpr ⟨?_, hs⟩
      intro r hr
      rcases List.mem_cons.mp hr with rfl | hr2
      · exact h1
      · exact Nat.lt_trans h1 (hq r hr2)
    · by_cases h2 : p = q
      · simpa only [insertKey, if_neg h1, if_pos h2] using hs
      · simp only [insertKey, if_neg h1, if_neg h2]
        refine List.pairwise_cons.mpr ⟨?_, ih hrest⟩
        intro r hr
        rcases (mem_insertKey p r rest).mp hr with rfl | hr2
        · exact Nat.lt_of_le_of_ne (Nat.le_of_not_lt h1) (Ne.symm h2)
        · exact hq r hr2

/-- `sortedKeys` over a snippet list extended on the right. -/
theorem sortedKeys_append (snips : List DockerfileSnippet) (sn : DockerfileSnippet) :
    sortedKeys (snips ++ [sn]) = insertKey sn.order (sortedKeys snips) := by
  simp [sortedKeys, List.foldl_append]

/-- The distinct-priority list is strictly ascending. -/
theorem sortedKeys_pairwise (snips : List DockerfileSnippet) :
    (sortedKeys snips).Pairwise (· < ·) := by
  induction snips using List.reverseRecOn with
  | nil => simp [sortedKeys]
  | append_singleton snips sn ih =>
    rw [sortedKeys_append]
    exact insertKey_pairwise _ _ ih

/-- A priority is a sorted key exactly when some snippet declares it. -/
theorem mem_sortedKeys (snips : List DockerfileSnippet) (p : Nat) :
    p ∈ sortedKeys snips ↔ p ∈ snips.map (fun s => s.order) := by
  induction snips using List.reverseRecOn with
  | nil => simp [sortedKeys]
  | append_singleton snips sn ih =>
    rw [sortedKeys_append]
    simp only [mem_insertKey, ih, List.map_append, List.map_cons, List.map_nil,
      List.mem_append, List.mem_singleton]
    tauto

/-- `joinNL` over a list extended on the right. -/
theorem joinNL_concat (l : List String) (s : String) :
    joinNL (l ++ [s]) = if l = [] then s else joinNL l ++ "\n" ++ s := by
  induction l with
  | nil => simp [joinNL]
  | cons x xs ih =>
    cases xs with
    | nil => simp [joinNL]
    | cons y ys =>
      have hne : (y :: ys : List String) ≠ [] := by simp
      have h1 : (x :: y :: ys : List String) ++ [s] = x :: y :: (ys ++ [s]) := by simp
      rw [h1]
      show x ++ "\n" ++ joinNL (y :: (ys ++ [s])) = _
      rw [show (y :: (ys ++ [s]) : List String) = (y :: ys) ++ [s] from by simp, ih,
        if_neg hne]
      simp [joinNL, String.append_assoc]

/-- `textsAt` over a snippet list extended on the right. -/
theorem textsAt_append (snips : List DockerfileSnippet) (sn : DockerfileSnippet) (p : Nat) :
    textsAt (snips ++ [sn]) p =
      textsAt snips p ++ if sn.order = p then [sn.content] else [] := by
  by_cases h : sn.order = p <;> simp [textsAt, List.filter_append, h]

/-- No snippet declares `p` exactly when `textsAt` is empty there. -/
theorem textsAt_eq_nil_iff (snips : List DockerfileSnippet) (p : Nat) :
    textsAt snips p = [] ↔ p ∉ snips.map (fun s => s.order) := by
  simp only [textsAt, List.map_eq_nil_iff, List.filter_eq_nil_iff, beq_iff_eq, List.mem_map]
  constructor
  · rintro h ⟨s, hs, rfl⟩
    exact h s hs rfl
  · intro h s hs hsp
    exact h ⟨s, hs, hsp⟩

/-- `insertSnippet` on the canonical image of a strictly ascending key
list is the canonical image of the inserted key list. -/
theorem insertSnippet_canonical (ks : List Nat) (hs : ks.Pairwise (· < ·))
    (g : Nat → String) (p : Nat) (s : String) :
    insertSnippet (ks.map (fun q => (q, g q))) p s =
      (insertKey p ks).map (fun q =>
        (q, if q = p then (if p ∈ ks then g p ++ "\n" ++ s else s) else g q)) := by
  induction ks with
  | nil => simp [insertSnippet, insertKey]
  | cons q rest ih =>
    obtain ⟨hq, hrest⟩ := List.pairwise_cons.mp hs
    by_cases h1 : p < q
    · have hpq : p ≠ q := Nat.ne_of_lt h1
      have hpmem : p ∉ q :: rest := by
        intro hmem
        rcases List.mem_cons.mp hmem with rfl | hmem2
        · exact hpq rfl
        · exact Nat.lt_irrefl p (Nat.lt_trans h1 (hq p hmem2))
      simp only [List.map_cons, insertSnippet, if_pos h1, insertKey]
      rw [if_neg hpmem]
      simp only [if_pos rfl, if_neg (Ne.symm hpq)]
      refine congrArg (fun l => (p, s) :: (q, g q) :: l) ?_
      refine (List.map_congr_left ?_).symm
      intro r hr
      have hrp : r ≠ p := by
        intro hrp
        subst hrp
        exact Nat.lt_irrefl r (Nat.lt_trans h1 (hq r hr))
      simp [if_neg hrp]
    · by_cases h2 : p = q
      · subst h2
        simp only [List.map_cons]
        rw [show insertSnippet ((p, g p) :: List.map (fun q => (q, g q)) rest) p s =
              (p, g p ++ "\n" ++ s) :: List.map (fun q => (q, g q)) rest from by
            simp [insertSnippet, h1]]
        rw [show insertKey p (p :: rest) = p :: rest from by simp [insertKey, h1]]
        simp only [List.map_cons, List.mem_cons_self, List.mem_cons, true_or, if_pos rfl,
          ite_true, eq_self_iff_true]
        refine congrArg (fun l => (p, g p ++ "\n" ++ s) :: l) ?_
        refine (List.map_congr_left ?_).symm
        intro r hr
        have hrp : r ≠ p := by
          intro hrp
          subst hrp
          exact Nat.lt_irrefl r (hq r hr)
        simp [if_neg hrp]
      · have hqlt : q < p := Nat.lt_of_le_of_ne (Nat.le_of_not_lt h1) (Ne.symm h2)
        simp only [List.map_cons, insertSnippet, if_neg h1, if_neg h2, insertKey]
        rw [ih hrest]
        simp only [if_neg (Ne.symm h2)]
        refine congrArg (fun l => (q, g q) :: l) ?_
        refine List.map_congr_left ?_
        intro r hr
        by_cases hrp : r = p
        · subst hrp
          have : (r ∈ rest) = (r ∈ q :: rest) := by
            simp [List.mem_cons, Ne.symm h2]
            tauto
          simp only [if_pos rfl, this]
        · simp [if_neg hrp]

/-- `buildAssoc` over a snippet list extended on the right. -/
theorem buildAssoc_append (snips : List DockerfileSnippet) (sn : DockerfileSnippet) :
    buildAssoc (snips ++ [sn]) = insertSnippet (buildAssoc snips) sn.order sn.content := by
  simp [buildAssoc, List.foldl_append]

/-- The priority map built by `generate_archive_impl` is canonical:
keys are the distinct priorities in ascending order, and each key holds
its snippets' texts joined in registration order by line breaks. -/
theorem buildAssoc_canonical (snips : List DockerfileSnippet) :
    buildAssoc snips = (sortedKeys snips).map (fun p => (p, joinNL (textsAt snips p))) := by
  induction snips using List.reverseRecOn with
  | nil => simp [buildAssoc, sortedKeys]
  | append_singleton snips sn ih =>
    rw [buildAssoc_append, ih, sortedKeys_append,
      insertSnippet_canonical (sortedKeys snips) (sortedKeys_pairwise snips)
        (fun p => joinNL (textsAt snips p)) sn.order sn.content]
    refine List.map_congr_left ?_
    intro q hq
    by_cases hqp : q = sn.order
    · subst hqp
      rw [textsAt_append]
      by_cases hmem : sn.order ∈ sortedKeys snips
      · have hne : textsAt snips sn.order ≠ [] := by
          rw [Ne, textsAt_eq_nil_iff]
          intro hc
          exact hc ((mem_sortedKeys snips sn.order).mp hmem)
        simp [hmem, joinNL_concat, hne]
      · have hnil : textsAt snips sn.order = [] := by
          rw [textsAt_eq_nil_iff]
          intro hc
          exact hmem ((mem_sortedKeys snips sn.order).mpr hc)
        simp [hmem, joinNL_concat, hnil, joinNL]
    · rw [textsAt_append]
      simp [hqp, Ne.symm hqp]

/-- `renderContents` concatenates the mapped blocks. -/
theorem renderContents_concat (m : List (Nat × String)) :
    renderContents m = concatAll (m.map (fun ps => ps.2 ++ "\n\n")) := by
  suffices h : ∀ acc, m.foldl (fun acc ps => acc ++ ps.2 ++ "\n\n") acc =
      acc ++ concatAll (m.map (fun ps => ps.2 ++ "\n\n")) by
    have h0 := h ""
    rw [String.empty_append] at h0
    exact h0
  induction m with
  | nil =>
    intro acc
    simp only [List.foldl_nil, List.map_nil, concatAll]
    rw [String.append_empty]
  | cons ps rest ih =>
    intro acc
    simp only [List.foldl_cons, List.map_cons, concatAll]
    rw [ih]
    simp [String.append_assoc]

/-- The snippet fold of the aspect loop equals the fold over the
flattened snippet list. -/
theorem archiveLoop_recipe_map (aspects : List ContainerAspect) (m : List (Nat × String))
    (es : List (String × String)) :
    (archiveLoop aspects (m, es)).1 =
      (flatSnips aspects).foldl (fun m s => insertSnippet m s.order s.content) m := by
  induction aspects generalizing m es with
  | nil => simp [archiveLoop, flatSnips]
  | cons a rest ih => simp [archiveLoop, flatSnips, ih, List.foldl_append]

/-- C2: the assembled Image Recipe equals the priority-ascending
concatenation of per-priority blocks — same-priority snippets joined in
registration order by single line breaks, each block followed by a
blank line — and scenario A (snippets 5:"X", 5:"Y", 1:"Z") yields
exactly "Z\n\nX\nY\n\n". -/
theorem recipe_priority_ascending :
    (∀ aspects : List ContainerAspect,
      dockerfileContents aspects = recipeSpec (flatSnips aspects)) ∧
      dockerfileContents [aspectX, aspectYZ] = "Z\n\nX\nY\n\n" := by
  constructor
  · intro aspects
    rw [dockerfileContents, archiveLoop_recipe_map aspects [] []]
    rw [show (flatSnips aspects).foldl (fun m s => insertSnippet m s.order s.content) [] =
      buildAssoc (flatSnips aspects) from rfl]
    rw [renderContents_concat, buildAssoc_canonical, recipeSpec, List.map_map]
    rfl
  · decide
